import Mathlib

/-!
Verification development for the astroport metastable pair package
(`packages/astroport/src/pair_metastable.rs`) and the invariant-based
pricing core described in the repository specification.

The message and response schemas are shallowly embedded from the Rust
source.  The numeric core (invariant engine, swap executor, TWAP
accumulator) is not part of the schema file; where a property depends on
it, the relevant functions are modelled from the specification text and
are marked `Modelled from the spec:` in their doc comments.
-/

/-- Modulus of the 128-bit unsigned integer type `cosmwasm_std::Uint128`. -/
def UINT128_MOD : ℕ := 2 ^ 128

/-- Modulus of the 64-bit unsigned integer type `u64`. -/
def U64_MOD : ℕ := 2 ^ 64

/-- The 128-bit unsigned integer type `cosmwasm_std::Uint128`, embedded as
naturals below `2 ^ 128`. -/
def Uint128 : Type := Fin UINT128_MOD

instance : DecidableEq Uint128 := instDecidableEqFin _

/-- The 64-bit unsigned integer type `u64`, embedded as naturals below
`2 ^ 64`. -/
def U64 : Type := Fin U64_MOD

instance : DecidableEq U64 := instDecidableEqFin _

/-- The value of a `Uint128` as a natural number. -/
def Uint128.val (a : Uint128) : ℕ := Fin.val a

/-- The value of a `U64` as a natural number. -/
def U64.val (a : U64) : ℕ := Fin.val a

/-- A bech32 account address (`cosmwasm_std::Addr`), embedded as a string. -/
def Addr : Type := String

instance : DecidableEq Addr := instDecidableEqString

/-- Opaque binary payload (`cosmwasm_std::Binary`), embedded as a byte list. -/
def Binary : Type := List ℕ

instance : DecidableEq Binary := instDecidableEqList

/-- `cosmwasm_std::Decimal`: a fixed-point decimal with 18 fractional
digits, stored as `Uint128` atomics (the value times `10 ^ 18`). -/
def Decimal : Type := Uint128

instance : DecidableEq Decimal := instDecidableEqFin _

/-- Modelled from the spec: `AssetInfo` (from `crate::asset`, not included
in the schema file) identifies an asset — either the chain's native coin
or a fungible-token contract reference. -/
inductive AssetInfo : Type where
  | token (contract_addr : Addr)
  | native_token (denom : String)
  deriving DecidableEq

/-- Modelled from the spec: `Asset` (from `crate::asset`) is an
`(AssetInfo, amount)` pair with a non-negative integer amount. -/
structure Asset : Type where
  info : AssetInfo
  amount : Uint128
  deriving DecidableEq

/-- Modelled from the spec: `PairInfo` (from `crate::asset`) carries the
pair's asset identities and pair-type metadata. -/
structure PairInfo : Type where
  asset_infos : List AssetInfo
  contract_addr : Addr
  liquidity_token : Addr
  pair_type : String
  deriving DecidableEq

/-- `cw20::Cw20ReceiveMsg`: the CW20 token-receive envelope carrying the
sending account, the transferred amount, and an embedded hook message. -/
structure Cw20ReceiveMsg : Type where
  sender : String
  amount : Uint128
  msg : Binary
  deriving DecidableEq

/-- The default swap slippage (`DEFAULT_SLIPPAGE` in
`pair_metastable.rs`), a decimal string. -/
def DEFAULT_SLIPPAGE : String := "0.005"

/-- The maximum allowed swap slippage (`MAX_ALLOWED_SLIPPAGE` in
`pair_metastable.rs`), a decimal string. -/
def MAX_ALLOWED_SLIPPAGE : String := "0.5"

/-- The execute messages available in the contract (`ExecuteMsg` in
`pair_metastable.rs`). -/
inductive ExecuteMsg : Type where
  | receive (msg : Cw20ReceiveMsg)
  | provide_liquidity (assets : Asset × Asset) (slippage_tolerance : Option Decimal)
      (auto_stake : Option Bool) (receiver : Option String)
  | swap (offer_asset : Asset) (belief_price : Option Decimal)
      (max_spread : Option Decimal) (toAddr : Option String)
  | update_config (params : Binary)
  deriving DecidableEq

/-- The CW20 hook messages (`Cw20HookMsg` in `pair_metastable.rs`). -/
inductive Cw20HookMsg : Type where
  | swap (belief_price : Option Decimal) (max_spread : Option Decimal) (toAddr : Option String)
  | withdraw_liquidity
  deriving DecidableEq

/-- The query messages available in the contract (`QueryMsg` in
`pair_metastable.rs`). -/
inductive QueryMsg : Type where
  | pair
  | pool
  | config
  | share (amount : Uint128)
  | simulation (offer_asset : Asset)
  | reverse_simulation (ask_asset : Asset)
  | cumulative_prices
  deriving DecidableEq

/-- bLUNA Lido specific parameters (`LidoPoolParams` in
`pair_metastable.rs`). -/
structure LidoPoolParams : Type where
  hub_address : String
  stluna_addr : String
  bluna_addr : String
  deriving DecidableEq

/-- Pool query result: total LP token amount and pool assets
(`PoolResponse` in `pair_metastable.rs`). -/
structure PoolResponse : Type where
  assets : List Asset
  total_share : Uint128
  deriving DecidableEq

/-- The lido pool configuration (`ConfigResponse` in
`pair_metastable.rs`). -/
structure ConfigResponse : Type where
  hub_address : Addr
  stluna_address : Addr
  bluna_address : Addr
  block_time_last : U64
  deriving DecidableEq

/-- Swap simulation result (`SimulationResponse` in
`pair_metastable.rs`). -/
structure SimulationResponse : Type where
  return_amount : Uint128
  spread_amount : Uint128
  commission_amount : Uint128
  deriving DecidableEq

/-- Reverse swap simulation result (`ReverseSimulationResponse` in
`pair_metastable.rs`). -/
structure ReverseSimulationResponse : Type where
  offer_amount : Uint128
  spread_amount : Uint128
  commission_amount : Uint128
  deriving DecidableEq

/-- Cumulative prices query result (`CumulativePricesResponse` in
`pair_metastable.rs`). -/
structure CumulativePricesResponse : Type where
  assets : List Asset
  total_share : Uint128
  cumulative_prices : List (AssetInfo × AssetInfo × Uint128)
  deriving DecidableEq

/-- The response type of each query variant, following the `#[returns]`
declarations on `QueryMsg` in `pair_metastable.rs`. -/
def queryResponse : QueryMsg → Type
  | .pair => PairInfo
  | .pool => PoolResponse
  | .config => ConfigResponse
  | .share _ => List Asset
  | .simulation _ => SimulationResponse
  | .reverse_simulation _ => ReverseSimulationResponse
  | .cumulative_prices => CumulativePricesResponse

/-- The ask asset carried by a `ReverseSimulation` query, if the query is
one. -/
def reverseSimAsk : QueryMsg → Option Asset
  | .reverse_simulation a => some a
  | _ => none

/-- The requested (desired) return amount of a `ReverseSimulation` query:
it is carried as the `amount` field of the query's ask `Asset`. -/
def reverseSimDesired (q : QueryMsg) : Option Uint128 :=
  (reverseSimAsk q).map Asset.amount

/-- The list of deposited assets carried by a `ProvideLiquidity` message
(empty for other messages). -/
def provideAssets : ExecuteMsg → List Asset
  | .provide_liquidity (a, b) _ _ _ => [a, b]
  | _ => []

/-- Splits a character list at every occurrence of the separator, like
`str::split` used by `Decimal::from_str`. -/
def splitParts (sep : Char) : List Char → List (List Char)
  | [] => [[]]
  | c :: cs =>
    match splitParts sep cs, decide (c = sep) with
    | r, true => [] :: r
    | [], false => [[c]]
    | p :: ps, false => (c :: p) :: ps

/-- Reads a non-empty all-digit character list as a natural number with
the given accumulator, failing on any non-digit. -/
def digitsVal : List Char → ℕ → Option ℕ
  | [], acc => some acc
  | c :: cs, acc =>
    if c.isDigit then digitsVal cs (acc * 10 + (c.toNat - 48)) else none

/-- Parses a non-empty decimal digit string as a natural number. -/
def parseUnsigned (l : List Char) : Option ℕ :=
  match l with
  | [] => none
  | _ :: _ => digitsVal l 0

/-- Semantics of `cosmwasm_std::Decimal::from_str`: an optional dot
separates the whole part from at most 18 fractional digits; the result is
the number of atomics (the value times `10 ^ 18`) and must fit in 128
bits. -/
def decimalFromStr (s : String) : Option ℕ :=
  match splitParts (Char.ofNat 46) s.toList with
  | [w] =>
    (parseUnsigned w).bind fun whole =>
      if whole * 10 ^ 18 < UINT128_MOD then some (whole * 10 ^ 18) else none
  | [w, f] =>
    (parseUnsigned w).bind fun whole =>
      (parseUnsigned f).bind fun frac =>
        if f.length ≤ 18 then
          if whole * 10 ^ 18 + frac * 10 ^ (18 - f.length) < UINT128_MOD then
            some (whole * 10 ^ 18 + frac * 10 ^ (18 - f.length))
          else none
        else none
  | _ => none

/-- Modelled from the spec: the two-asset stable-invariant relation of the
`InvariantEngine` with denominators cleared.  Over the rationals the
invariant equation for balances `x`, `y` and amplification `A` is
`4*A*(x+y) + D = 4*A*D + D^3/(4*x*y)`; multiplying by `4*x*y` turns
"`D` is at most the invariant of `(x, y)`" into this inequality in ℕ. -/
def dLE (x y A D : ℕ) : Prop :=
  16 * A * D * x * y + D ^ 3 ≤ 16 * A * (x + y) * x * y + 4 * D * x * y

instance (x y A D : ℕ) : Decidable (dLE x y A D) :=
  inferInstanceAs (Decidable (_ ≤ _))

/-- Modelled from the spec: `InvariantEngine.computeD` solves the stable
invariant equation for the given balances and amplification; embedded as
the greatest natural `D` satisfying the cleared invariant inequality
(the exact floor of the real root the iterative solver converges to). -/
def computeD (x y A : ℕ) : ℕ :=
  Nat.findGreatest (fun D => dLE x y A D) (x + y)

/-- Returns the least `n ≥ start` with `p n`, probing at most `fuel`
positions past `start` (the search is exhaustive below its bound). -/
def findLeast (p : ℕ → Bool) (start fuel : ℕ) : ℕ :=
  match fuel with
  | 0 => start
  | f + 1 => if p start then start else findLeast p (start + 1) f

/-- Modelled from the spec: `InvariantEngine.computeBalance` solves for
one reserve's balance given the other reserve's new value and the target
invariant `D`; embedded as the least natural `y` whose invariant with `x`
is at least `D` (the exact ceiling of the real root the iterative solver
converges to). -/
def computeBalance (x A D : ℕ) : ℕ :=
  findLeast (fun y => decide (dLE x y A D)) 0 (A * D * x + D ^ 3 + 1)

/-- Modelled from the spec: the raw (pre-fee) ask-side output of a swap.
The `SwapExecutor` holds the invariant `D` of the pre-trade reserves
fixed while the offer-side reserve grows by the offer amount, and the
raw output is the resulting drop of the ask-side reserve. -/
def rawSwapOutput (x y A dx : ℕ) : ℕ :=
  y - computeBalance (x + dx) A (computeD x y A)

/-- The three amounts produced by swap pricing: return, spread and
commission. -/
structure SwapAmounts : Type where
  return_amount : ℕ
  spread_amount : ℕ
  commission_amount : ℕ
  deriving DecidableEq

/-- Modelled from the spec: `SwapExecutor` pricing.  The spread is the
shortfall of the raw output against a strict 1:1 parity exchange of the
offer amount, the commission is the floor of the raw output times the
commission rate `crNum / crDen`, and the return amount is the raw output
minus the commission. -/
def computeSwap (x y A dx crNum crDen : ℕ) : SwapAmounts :=
  let rawOut := rawSwapOutput x y A dx
  let commission := rawOut * crNum / crDen
  { return_amount := rawOut - commission
    spread_amount := dx - rawOut
    commission_amount := commission }

/-- Numeric pool state seen by the swap executor: the two reserves (the
offer side first), the amplification coefficient and the commission rate
`crNum / crDen` from the pair configuration. -/
structure PoolNum : Type where
  offerReserve : ℕ
  askReserve : ℕ
  amp : ℕ
  crNum : ℕ
  crDen : ℕ
  deriving DecidableEq

/-- Modelled from the spec: the `Simulation` query performs the swap math
without mutating state or advancing the price accumulator. -/
def simulate (p : PoolNum) (offerAmount : ℕ) : SwapAmounts :=
  let D := computeD p.offerReserve p.askReserve p.amp
  let newAsk := computeBalance (p.offerReserve + offerAmount) p.amp D
  let rawOut := p.askReserve - newAsk
  let commission := rawOut * p.crNum / p.crDen
  { return_amount := rawOut - commission
    spread_amount := offerAmount - rawOut
    commission_amount := commission }

/-- Modelled from the spec: an actual `Swap` execution prices the trade
with `computeSwap`, then mutates the pool: the offer reserve grows by the
full offer amount and the ask reserve drops by the raw output and regains
the commission (the fee is retained inside the pool). -/
def executeSwap (p : PoolNum) (offerAmount : ℕ) : PoolNum × SwapAmounts :=
  let a := computeSwap p.offerReserve p.askReserve p.amp offerAmount p.crNum p.crDen
  ({ p with
      offerReserve := p.offerReserve + offerAmount
      askReserve := p.askReserve - (a.return_amount + a.commission_amount)
        + a.commission_amount },
   a)

/-- Modelled from the spec: one TWAP accumulator step.  The cumulative
price is a fixed-width 128-bit unsigned integer and addition of the
price-times-elapsed-time increment wraps on overflow modulo `2 ^ 128`. -/
def accumulatePrice (acc : Uint128) (priceTimesDt : ℕ) : Uint128 :=
  ⟨(Uint128.val acc + priceTimesDt) % UINT128_MOD,
   Nat.mod_lt _ (by norm_num [UINT128_MOD])⟩

/-- Modelled from the spec: state backing the `CumulativePrices` query of
a two-asset pool — the two pool assets, the outstanding share supply, and
one cumulative-price accumulator per ordered asset pair. -/
structure MetaPoolState : Type where
  asset0 : Asset
  asset1 : Asset
  total_share : Uint128
  price0_cumulative : Uint128
  price1_cumulative : Uint128
  deriving DecidableEq

/-- Modelled from the spec: the `CumulativePrices` query returns the pool
assets, the total share, and one `(offer AssetInfo, ask AssetInfo,
cumulative price)` triple per ordered asset pair. -/
def queryCumulativePrices (s : MetaPoolState) : CumulativePricesResponse :=
  { assets := [s.asset0, s.asset1]
    total_share := s.total_share
    cumulative_prices :=
      [(s.asset0.info, s.asset1.info, s.price0_cumulative),
       (s.asset1.info, s.asset0.info, s.price1_cumulative)] }

/-- A sample asset used as a concrete input in witness statements. -/
def sampleAsset : Asset :=
  { info := AssetInfo.native_token "uluna", amount := ⟨7, by norm_num [UINT128_MOD]⟩ }

/-- A sample 128-bit value used as a concrete input in witness
statements. -/
def sampleUint : Uint128 := ⟨0, by norm_num [UINT128_MOD]⟩

lemma findLeast_ge (p : ℕ → Bool) (fuel : ℕ) : ∀ start, start ≤ findLeast p start fuel := by
  induction fuel with
  | zero => intro s; exact le_refl s
  | succ f ih =>
    intro s
    unfold findLeast
    by_cases h : p s = true
    · simp [h]
    · simp only [h, if_false]
      exact le_trans (Nat.le_succ s) (ih (s + 1))

lemma findLeast_sat (p : ℕ → Bool) (fuel : ℕ) :
    ∀ start, p (start + fuel) = true → p (findLeast p start fuel) = true := by
  induction fuel with
  | zero => intro s h; simpa using h
  | succ f ih =>
    intro s h
    unfold findLeast
    by_cases hs : p s = true
    · simp [hs]
    · simp only [hs, if_false]
      refine ih (s + 1) ?_
      have : s + 1 + f = s + (f + 1) := by omega
      rw [this]
      exact h

lemma findLeast_min (p : ℕ → Bool) (fuel : ℕ) :
    ∀ start y, start ≤ y → y < findLeast p start fuel → p y = false := by
  induction fuel with
  | zero =>
    intro s y hsy hy
    unfold findLeast at hy
    omega
  | succ f ih =>
    intro s y hsy hy
    unfold findLeast at hy
    by_cases hs : p s = true
    · rw [if_pos hs] at hy
      omega
    · rw [if_neg hs] at hy
      rcases Nat.eq_or_lt_of_le hsy with rfl | hlt
      · exact Bool.eq_false_iff.mpr hs
      · exact ih (s + 1) y hlt hy

lemma four_xy_le_sq_sum (x y : ℕ) : 4 * (x * y) ≤ (x + y) ^ 2 := by
  rcases le_total x y with h | h
  · obtain ⟨k, rfl⟩ := Nat.exists_eq_add_of_le h
    nlinarith [sq_nonneg k]
  · obtain ⟨k, rfl⟩ := Nat.exists_eq_add_of_le h
    nlinarith [sq_nonneg k]

lemma dLE_D_zero (x y A : ℕ) : dLE x y A 0 := by
  unfold dLE
  simp

lemma dLE_y_zero {x A D : ℕ} (h : dLE x 0 A D) : D = 0 := by
  unfold dLE at h
  simp at h
  exact h

lemma dLE_le_sum {x y A D : ℕ} (hx : 1 ≤ x) (hy : 1 ≤ y) (hA : 1 ≤ A)
    (h : dLE x y A D) : D ≤ x + y := by
  by_contra hc
  push_neg at hc
  have hD1 : x + y + 1 ≤ D := hc
  unfold dLE at h
  have h1 : 1 * 1 * 1 ≤ A * x * y := Nat.mul_le_mul (Nat.mul_le_mul hA hx) hy
  simp only [one_mul] at h1
  have key : 16 * A * (x + y + 1) * (x * y) ≤ 16 * A * D * (x * y) :=
    Nat.mul_le_mul_right (x * y) (Nat.mul_le_mul_left (16 * A) hD1)
  have step2 : D ^ 3 + 16 * A * x * y ≤ 4 * D * x * y := by nlinarith [h, key]
  have hApos : 16 * 1 ≤ 16 * (A * x * y) := Nat.mul_le_mul_left 16 h1
  have hD3 : D ^ 3 < 4 * D * x * y := by nlinarith [step2, hApos]
  have hD2 : D ^ 2 < 4 * (x * y) := by
    have h' : D * D ^ 2 < D * (4 * (x * y)) := by
      calc D * D ^ 2 = D ^ 3 := by ring
        _ < 4 * D * x * y := hD3
        _ = D * (4 * (x * y)) := by ring
    exact Nat.lt_of_mul_lt_mul_left h'
  have hsq : (x + y) ^ 2 ≤ D ^ 2 := Nat.pow_le_pow_left (by omega) 2
  linarith [four_xy_le_sq_sum x y, hsq, hD2]

lemma dLE_mono_left {x y A D : ℕ} (hD : D ≤ x + y) (h : dLE x y A D) (k : ℕ) :
    dLE (x + k) y A D := by
  unfold dLE at h ⊢
  have key : 16 * A * D * (k * y) ≤ 16 * A * (x + y) * (k * y) :=
    Nat.mul_le_mul_right (k * y) (Nat.mul_le_mul_left (16 * A) hD)
  nlinarith [h, key, Nat.zero_le (16 * A * k * x * y + 16 * A * k ^ 2 * y + 4 * D * k * y)]

lemma dLE_at_bound {x A : ℕ} (hx : 1 ≤ x) (hA : 1 ≤ A) (D : ℕ) :
    dLE x (A * D * x + D ^ 3 + 1) A D := by
  unfold dLE
  have hDy0 : D ≤ A * D * x + D ^ 3 + 1 := by
    have := Nat.le_self_pow (n := 3) (by norm_num) D
    omega
  have h2 : 16 * A * x * (A * D * x + D ^ 3 + 1) * D
      ≤ 16 * A * x * (A * D * x + D ^ 3 + 1) * (A * D * x + D ^ 3 + 1) :=
    Nat.mul_le_mul_left _ hDy0
  have h3 : D ^ 3 ≤ A * D * x + D ^ 3 + 1 := by omega
  have h4 : 1 * (A * D * x + D ^ 3 + 1) ≤ 16 * A * x ^ 2 * (A * D * x + D ^ 3 + 1) := by
    apply Nat.mul_le_mul_right
    nlinarith [hx, hA]
  have h5 : D ^ 3 ≤ 16 * A * x ^ 2 * (A * D * x + D ^ 3 + 1) :=
    le_trans h3 (by simpa using h4)
  nlinarith [h2, h5, Nat.zero_le (4 * D * x * (A * D * x + D ^ 3 + 1))]

lemma computeD_le (x y A : ℕ) : computeD x y A ≤ x + y :=
  Nat.findGreatest_le (x + y)

lemma computeD_spec {x y A : ℕ} (h : computeD x y A ≠ 0) :
    dLE x y A (computeD x y A) :=
  (Nat.findGreatest_eq_iff.mp rfl).2.1 h

lemma le_computeD {x y A D : ℕ} (hb : D ≤ x + y) (h : dLE x y A D) :
    D ≤ computeD x y A :=
  Nat.le_findGreatest hb h

lemma computeBalance_sat {x A : ℕ} (hx : 1 ≤ x) (hA : 1 ≤ A) (D : ℕ) :
    dLE x (computeBalance x A D) A D := by
  have h := findLeast_sat (fun y => decide (dLE x y A D)) (A * D * x + D ^ 3 + 1) 0
    (by simpa using decide_eq_true (dLE_at_bound hx hA D))
  exact of_decide_eq_true h

lemma computeBalance_le {x y A D : ℕ} (h : dLE x y A D) :
    computeBalance x A D ≤ y := by
  by_contra hc
  push_neg at hc
  have hm := findLeast_min (fun y => decide (dLE x y A D)) (A * D * x + D ^ 3 + 1) 0 y
    (Nat.zero_le y) hc
  simp only [decide_eq_false_iff_not] at hm
  exact hm h

lemma computeBalance_pos {x A D : ℕ} (hx : 1 ≤ x) (hA : 1 ≤ A) (hD : D ≠ 0) :
    1 ≤ computeBalance x A D := by
  by_contra hc
  push_neg at hc
  have h0 : computeBalance x A D = 0 := by omega
  have hsat := computeBalance_sat hx hA D
  rw [h0] at hsat
  exact hD (dLE_y_zero hsat)

/-- C2: for every valid swap execution, the invariant `D` computed from
the post-trade reserves using the raw (pre-fee) output — the offer
reserve grown by the offer amount and the ask reserve shrunk by the raw
output — is greater than or equal to the invariant `D` computed from the
pre-trade reserves. -/
theorem swap_invariant_monotone (x y A dx : ℕ)
    (hx : 1 ≤ x) (hy : 1 ≤ y) (hA : 1 ≤ A) :
    computeD x y A ≤ computeD (x + dx) (y - rawSwapOutput x y A dx) A := by
  rcases Nat.eq_zero_or_pos (computeD x y A) with h0 | hpos
  · rw [h0]
    exact Nat.zero_le _
  · have hdle : dLE x y A (computeD x y A) :=
      computeD_spec (Nat.pos_iff_ne_zero.mp hpos)
    have hsum : computeD x y A ≤ x + y := dLE_le_sum hx hy hA hdle
    have hmono : dLE (x + dx) y A (computeD x y A) := dLE_mono_left hsum hdle dx
    have hnle : computeBalance (x + dx) A (computeD x y A) ≤ y :=
      computeBalance_le hmono
    have hx2 : 1 ≤ x + dx := le_trans hx (Nat.le_add_right x dx)
    have hsat : dLE (x + dx) (computeBalance (x + dx) A (computeD x y A)) A
        (computeD x y A) := computeBalance_sat hx2 hA _
    have hpost : y - rawSwapOutput x y A dx
        = computeBalance (x + dx) A (computeD x y A) := by
      unfold rawSwapOutput
      exact Nat.sub_sub_self hnle
    rw [hpost]
    have hnb1 : 1 ≤ computeBalance (x + dx) A (computeD x y A) :=
      computeBalance_pos hx2 hA (Nat.pos_iff_ne_zero.mp hpos)
    have hsum2 : computeD x y A
        ≤ (x + dx) + computeBalance (x + dx) A (computeD x y A) :=
      dLE_le_sum hx2 hnb1 hA hsat
    exact le_computeD hsum2 hsat

/-- C1: the default slippage tolerance constant parses to the decimal
fraction 0.005 (0.5%) and the maximum allowed slippage constant parses to
the decimal fraction 0.5 (50%). -/
theorem slippage_constants_values :
    Option.map (fun n : ℕ => (n : ℚ) / 10 ^ 18) (decimalFromStr DEFAULT_SLIPPAGE) = some 0.005
      ∧ Option.map (fun n : ℕ => (n : ℚ) / 10 ^ 18) (decimalFromStr MAX_ALLOWED_SLIPPAGE)
          = some 0.5 := by
  have h1 : decimalFromStr DEFAULT_SLIPPAGE = some 5000000000000000 := by rfl
  have h2 : decimalFromStr MAX_ALLOWED_SLIPPAGE = some 500000000000000000 := by rfl
  rw [h1, h2]
  constructor
  · simp only [Option.map_some']
    norm_num
  · simp only [Option.map_some']
    norm_num

/-- C3: the mutating message surface is a closed sum: `ExecuteMsg` has
exactly the variants `Receive`, `ProvideLiquidity`, `Swap` and
`UpdateConfig`, and the token-receive hook message is exactly either
`Swap` or `WithdrawLiquidity`. -/
theorem execute_msg_closed :
    (∀ m : ExecuteMsg,
        (∃ r, m = ExecuteMsg.receive r)
      ∨ (∃ a st au rc, m = ExecuteMsg.provide_liquidity a st au rc)
      ∨ (∃ o bp ms t, m = ExecuteMsg.swap o bp ms t)
      ∨ (∃ p, m = ExecuteMsg.update_config p))
    ∧ (∀ h : Cw20HookMsg,
        (∃ bp ms t, h = Cw20HookMsg.swap bp ms t)
      ∨ h = Cw20HookMsg.withdraw_liquidity) := by
  constructor
  · intro m
    cases m with
    | receive r => exact Or.inl ⟨r, rfl⟩
    | provide_liquidity a st au rc => exact Or.inr (Or.inl ⟨a, st, au, rc, rfl⟩)
    | swap o bp ms t => exact Or.inr (Or.inr (Or.inl ⟨o, bp, ms, t, rfl⟩))
    | update_config p => exact Or.inr (Or.inr (Or.inr ⟨p, rfl⟩))
  · intro h
    cases h with
    | swap bp ms t => exact Or.inl ⟨bp, ms, t, rfl⟩
    | withdraw_liquidity => exact Or.inr rfl

/-- C4: the `ReverseSimulation` query is fully determined by its single
ask `Asset` parameter, and the requested (desired) return amount is
carried as the `amount` field of that asset — there is no separate
desired-return field in the request schema. -/
theorem reverse_simulation_single_ask_param (q : QueryMsg) (a : Asset)
    (h : reverseSimAsk q = some a) :
    q = QueryMsg.reverse_simulation a ∧ reverseSimDesired q = some a.amount := by
  cases q with
  | reverse_simulation b =>
    injection h with h2
    subst h2
    exact ⟨rfl, rfl⟩
  | pair => exact Option.noConfusion h
  | pool => exact Option.noConfusion h
  | config => exact Option.noConfusion h
  | share amt => exact Option.noConfusion h
  | simulation o => exact Option.noConfusion h
  | cumulative_prices => exact Option.noConfusion h

/-- Witness for C4 at a concrete query built from a sample asset. -/
theorem reverse_simulation_single_ask_param_witness :
    QueryMsg.reverse_simulation sampleAsset = QueryMsg.reverse_simulation sampleAsset
      ∧ reverseSimDesired (QueryMsg.reverse_simulation sampleAsset)
          = some sampleAsset.amount :=
  reverse_simulation_single_ask_param (QueryMsg.reverse_simulation sampleAsset)
    sampleAsset rfl

/-- Witness for C2: the invariant monotonicity theorem instantiated at a
concrete pre-state and offer amount. -/
theorem swap_invariant_monotone_witness :
    1 ≤ 1000 ∧ computeD 1000 1000 10 ≤ computeD (1000 + 100)
        (1000 - rawSwapOutput 1000 1000 10 100) 10 :=
  ⟨by decide, swap_invariant_monotone 1000 1000 10 100 (by decide) (by decide) (by decide)⟩

/-- C5: the `Simulation` response consists of exactly the three fields
`return_amount`, `spread_amount`, `commission_amount` and the
`ReverseSimulation` response of exactly `offer_amount`, `spread_amount`,
`commission_amount`, all non-negative 128-bit integers. -/
theorem simulation_responses_exactly_three_fields :
    Function.Bijective (fun t : Uint128 × Uint128 × Uint128 =>
        SimulationResponse.mk t.1 t.2.1 t.2.2)
    ∧ Function.Bijective (fun t : Uint128 × Uint128 × Uint128 =>
        ReverseSimulationResponse.mk t.1 t.2.1 t.2.2)
    ∧ (∀ r : SimulationResponse, 0 ≤ Uint128.val r.return_amount
        ∧ 0 ≤ Uint128.val r.spread_amount ∧ 0 ≤ Uint128.val r.commission_amount)
    ∧ (∀ r : ReverseSimulationResponse, 0 ≤ Uint128.val r.offer_amount
        ∧ 0 ≤ Uint128.val r.spread_amount ∧ 0 ≤ Uint128.val r.commission_amount) := by
  refine ⟨⟨?_, ?_⟩, ⟨?_, ?_⟩, ?_, ?_⟩
  · rintro ⟨a1, a2, a3⟩ ⟨b1, b2, b3⟩ hab
    simpa using hab
  · intro r
    exact ⟨⟨r.return_amount, r.spread_amount, r.commission_amount⟩, rfl⟩
  · rintro ⟨a1, a2, a3⟩ ⟨b1, b2, b3⟩ hab
    simpa using hab
  · intro r
    exact ⟨⟨r.offer_amount, r.spread_amount, r.commission_amount⟩, rfl⟩
  · intro r
    exact ⟨Nat.zero_le _, Nat.zero_le _, Nat.zero_le _⟩
  · intro r
    exact ⟨Nat.zero_le _, Nat.zero_le _, Nat.zero_le _⟩

/-- C6: the cumulative price accumulator is a 128-bit unsigned integer
that wraps on overflow modulo `2 ^ 128`, and the `CumulativePrices` query
returns the pool assets, the total share, and one
`(offer AssetInfo, ask AssetInfo, cumulative price)` triple per ordered
asset pair. -/
theorem cumulative_prices_schema_and_wrapping :
    (∀ (acc : Uint128) (p : ℕ),
        Uint128.val (accumulatePrice acc p) = (Uint128.val acc + p) % UINT128_MOD
          ∧ Uint128.val (accumulatePrice acc p) < UINT128_MOD)
    ∧ Function.Bijective
        (fun t : List Asset × Uint128 × List (AssetInfo × AssetInfo × Uint128) =>
          CumulativePricesResponse.mk t.1 t.2.1 t.2.2)
    ∧ (∀ s : MetaPoolState,
        (queryCumulativePrices s).assets = [s.asset0, s.asset1]
          ∧ (queryCumulativePrices s).total_share = s.total_share
          ∧ (queryCumulativePrices s).cumulative_prices =
              [(s.asset0.info, s.asset1.info, s.price0_cumulative),
               (s.asset1.info, s.asset0.info, s.price1_cumulative)]) := by
  refine ⟨?_, ⟨?_, ?_⟩, ?_⟩
  · intro acc p
    exact ⟨rfl, Nat.mod_lt _ (by norm_num [UINT128_MOD])⟩
  · rintro ⟨a1, a2, a3⟩ ⟨b1, b2, b3⟩ hab
    simpa using hab
  · intro r
    exact ⟨⟨r.assets, r.total_share, r.cumulative_prices⟩, rfl⟩
  · intro s
    exact ⟨rfl, rfl, rfl⟩

/-- C7: the query surface is a closed sum with exactly the seven variants
`Pair`, `Pool`, `Config`, `Share`, `Simulation`, `ReverseSimulation` and
`CumulativePrices`, each mapped to the response schema declared in the
source. -/
theorem query_msg_closed_with_responses :
    (∀ q : QueryMsg,
        q = QueryMsg.pair ∨ q = QueryMsg.pool ∨ q = QueryMsg.config
      ∨ (∃ amt, q = QueryMsg.share amt)
      ∨ (∃ a, q = QueryMsg.simulation a)
      ∨ (∃ a, q = QueryMsg.reverse_simulation a)
      ∨ q = QueryMsg.cumulative_prices)
    ∧ queryResponse QueryMsg.pair = PairInfo
    ∧ queryResponse QueryMsg.pool = PoolResponse
    ∧ queryResponse QueryMsg.config = ConfigResponse
    ∧ (∀ amt, queryResponse (QueryMsg.share amt) = List Asset)
    ∧ (∀ a, queryResponse (QueryMsg.simulation a) = SimulationResponse)
    ∧ (∀ a, queryResponse (QueryMsg.reverse_simulation a) = ReverseSimulationResponse)
    ∧ queryResponse QueryMsg.cumulative_prices = CumulativePricesResponse := by
  refine ⟨?_, rfl, rfl, rfl, fun _ => rfl, fun _ => rfl, fun _ => rfl, rfl⟩
  intro q
  cases q with
  | pair => exact Or.inl rfl
  | pool => exact Or.inr (Or.inl rfl)
  | config => exact Or.inr (Or.inr (Or.inl rfl))
  | share amt => exact Or.inr (Or.inr (Or.inr (Or.inl ⟨amt, rfl⟩)))
  | simulation a => exact Or.inr (Or.inr (Or.inr (Or.inr (Or.inl ⟨a, rfl⟩))))
  | reverse_simulation a =>
    exact Or.inr (Or.inr (Or.inr (Or.inr (Or.inr (Or.inl ⟨a, rfl⟩)))))
  | cumulative_prices =>
    exact Or.inr (Or.inr (Or.inr (Or.inr (Or.inr (Or.inr rfl)))))

/-- C8: the `Config` response consists of exactly the three Lido contract
addresses `hub_address`, `stluna_address`, `bluna_address` and the
unsigned 64-bit timestamp `block_time_last` — in particular it carries
neither an amplification coefficient nor a commission rate. -/
theorem config_response_fields :
    Function.Bijective (fun t : Addr × Addr × Addr × U64 =>
        ConfigResponse.mk t.1 t.2.1 t.2.2.1 t.2.2.2)
    ∧ (∀ c : ConfigResponse, U64.val c.block_time_last < U64_MOD)
    ∧ (∀ (h s b : Addr) (bt : U64),
        (ConfigResponse.mk h s b bt).hub_address = h
          ∧ (ConfigResponse.mk h s b bt).stluna_address = s
          ∧ (ConfigResponse.mk h s b bt).bluna_address = b
          ∧ (ConfigResponse.mk h s b bt).block_time_last = bt) := by
  refine ⟨⟨?_, ?_⟩, ?_, ?_⟩
  · rintro ⟨a1, a2, a3, a4⟩ ⟨b1, b2, b3, b4⟩ hab
    simpa using hab
  · intro c
    exact ⟨⟨c.hub_address, c.stluna_address, c.bluna_address, c.block_time_last⟩, rfl⟩
  · intro c
    exact Fin.isLt c.block_time_last
  · intro h s b bt
    exact ⟨rfl, rfl, rfl, rfl⟩

/-- C9: against an identical pre-state and offer amount, the `Simulation`
query and an actual `Swap` execution produce identical return, spread and
commission amounts. -/
theorem simulation_matches_execution (p : PoolNum) (dx : ℕ) :
    (simulate p dx).return_amount = ((executeSwap p dx).2).return_amount
      ∧ (simulate p dx).spread_amount = ((executeSwap p dx).2).spread_amount
      ∧ (simulate p dx).commission_amount = ((executeSwap p dx).2).commission_amount :=
  ⟨rfl, rfl, rfl⟩

/-- C10: every `ProvideLiquidity` request carries exactly two assets (the
arity is fixed by its type), while the `Pool` and `CumulativePrices`
response types carry variable-length asset lists that admit lengths other
than two. -/
theorem two_asset_arity_only_in_request :
    (∀ (a : Asset × Asset) (st : Option Decimal) (au : Option Bool) (rc : Option String),
        (provideAssets (ExecuteMsg.provide_liquidity a st au rc)).length = 2)
    ∧ (∃ p : PoolResponse, p.assets.length ≠ 2)
    ∧ (∃ c : CumulativePricesResponse, c.assets.length ≠ 2) := by
  refine ⟨?_, ⟨⟨[], sampleUint⟩, by simp⟩, ⟨⟨[], sampleUint, []⟩, by simp⟩⟩
  rintro ⟨a, b⟩ st au rc
  rfl
